import Mathlib

/-!
Shallow embedding of `src/src/allmydata/util/eliotutil.py` — the
context-preserving suspension trampoline: the per-generator Eliot action
context registry (`_GeneratorContext`) and the drive loop produced by
`eliot_friendly_generator_function`.

Modelling conventions:
* A context stack is a list of opaque action markers (`Stack := List String`).
* Python values are a small closed universe `PyVal`; exceptions are a type
  name plus a payload (`PyExc`).  `StopIteration` is recognised by its
  type name, as Python's `except StopIteration` does.
* Generator handles are natural numbers; the `WeakKeyDictionary` is an
  association list (its weakness — garbage-collection behaviour — is not
  modelled).
* A generator body is a step function `σ → ResumeIn → Stack → StepOut σ`:
  given its internal state, the resumption input delivered by
  `gen.send` / `gen.throw`, and the context stack the body observes through
  Eliot's (hooked) `_get_stack`, it either yields a value, completes
  (`StopIteration` with a payload), or raises.
* The global mutable state (`_the_generator_context` plus the ambient
  thread stack of Eliot's execution context) is threaded explicitly as
  `EliotState`.
-/

namespace Eliotutil

abbrev Stack := List String

/-- A small closed universe of Python values. -/
inductive PyVal where
  | pynone
  | int (n : Int)
  | str (s : String)
  | stack (st : Stack)
deriving DecidableEq, Repr

/-- A Python exception: its type name and a payload. -/
structure PyExc where
  ty : String
  payload : PyVal
deriving DecidableEq, Repr

/-- The two-channel resumption input of the generator protocol:
`send v` models `gen.send(v)` (the `ok = True` branch of the wrapper),
`throwExc e` models `gen.throw(*exc_info())` (the `ok = False` branch). -/
inductive ResumeIn where
  | send (v : PyVal)
  | throwExc (e : PyExc)
deriving DecidableEq, Repr

/-- Outcome of stepping a generator body once: it yields a value with a new
internal state, stops (`StopIteration` carrying the return payload), or
raises some other exception. -/
inductive StepOut (σ : Type) where
  | yielded (v : PyVal) (next : σ)
  | stopped (r : PyVal)
  | raised (e : PyExc)
deriving DecidableEq, Repr

/-- The global state: the `WeakKeyDictionary` of `_GeneratorContext`
(`contexts`), its `_current_generator` slot (`current`), and the ambient
main action stack of Eliot's execution context (`ambient`). -/
structure EliotState where
  contexts : List (Nat × Stack)
  current : Option Nat
  ambient : Stack
deriving DecidableEq, Repr

/-- Association-list lookup for the contexts map. -/
def lookupCtx : List (Nat × Stack) → Nat → Option Stack
  | [], _ => none
  | (k, v) :: rest, g => if k = g then some v else lookupCtx rest g

/-- Association-list insert (overwriting) for the contexts map; this is the
behaviour of `self._contexts[generator] = stack`. -/
def insertCtx : List (Nat × Stack) → Nat → Stack → List (Nat × Stack)
  | [], g, st => [(g, st)]
  | (k, v) :: rest, g, st =>
    if k = g then (g, st) :: rest else (k, v) :: insertCtx rest g st

/-- `_GeneratorContext.get_stack` (installed by `use_generator_context` as
Eliot's `get_sub_context` hook): `None` when no generator is active;
otherwise the tracked stack of the active generator — whose lookup raises
`KeyError` when that generator was never initialised. -/
def get_stack (s : EliotState) : Except PyExc (Option Stack) :=
  match s.current with
  | none => Except.ok none
  | some g =>
    match lookupCtx s.contexts g with
    | some st => Except.ok (some st)
    | none => Except.error ⟨"KeyError", PyVal.int (Int.ofNat g)⟩

/-- Eliot's `ExecutionContext._get_stack` with the generator-context hook
installed: consult `get_stack`; a `None` answer defers to the ambient main
stack.  This is both what `init_stack` captures and what code running inside
a generator observes as its current action context. -/
def get_current_stack (s : EliotState) : Except PyExc Stack :=
  match get_stack s with
  | Except.error e => Except.error e
  | Except.ok none => Except.ok s.ambient
  | Except.ok (some st) => Except.ok st

/-- `_GeneratorContext.init_stack`: capture `list(_execution_context._get_stack())`
and store it keyed by the generator.  There is no check against an existing
entry: a second call overwrites. -/
def init_stack (s : EliotState) (g : Nat) : Except PyExc EliotState :=
  match get_current_stack s with
  | Except.error e => Except.error e
  | Except.ok st => Except.ok { s with contexts := insertCtx s.contexts g st }

/-- What one resumption of the wrapper produces for its own caller. -/
inductive DriverOut (σ : Type) where
  | yieldOut (v : PyVal) (next : σ)
  | done
  | fail (e : PyExc)
deriving DecidableEq, Repr

/-- Result of one iteration of the wrapper loop: outcome, the global state
after the `context` manager's `finally` restored the slot, the `Message.log`
events emitted (message type paired with the stack they were attributed to),
and the stack(s) the generator body observed while running. -/
structure StepResult (σ : Type) where
  out : DriverOut σ
  state : EliotState
  log : List (String × Stack)
  obs : List Stack
deriving DecidableEq, Repr

/-- One iteration of the `while True` loop of
`eliot_friendly_generator_function.wrapper`:

* `with _the_generator_context.context(gen)` saves `current`, sets it to
  `gen`, and — in `finally` — restores the saved value on every exit path;
* inside the scope the generator is stepped with `gen.send(value_in)` or
  `gen.throw(*value_in)` according to the pending channel, observing the
  hooked current stack;
* a yielded value triggers `Message.log(message_type="yielded")` while the
  scope is still active; the wrapper then re-yields the value;
* `StopIteration` (whether signalled by completion or raised as such) is
  caught outside the scope and ends the loop;
* any other exception propagates unmodified, the slot having been restored
  by the `finally`. -/
def driver_step {σ : Type} (step : σ → ResumeIn → Stack → StepOut σ) (g : Nat)
    (st : σ) (input : ResumeIn) (s : EliotState) : StepResult σ :=
  let prev := s.current
  let s1 : EliotState := { s with current := some g }
  match get_current_stack s1 with
  | Except.error e => ⟨DriverOut.fail e, { s1 with current := prev }, [], []⟩
  | Except.ok stk =>
    match step st input stk with
    | StepOut.yielded v st' =>
      ⟨DriverOut.yieldOut v st', { s1 with current := prev },
        [("yielded", stk)], [stk]⟩
    | StepOut.stopped _ =>
      ⟨DriverOut.done, { s1 with current := prev }, [], [stk]⟩
    | StepOut.raised e =>
      if e.ty = "StopIteration" then
        ⟨DriverOut.done, { s1 with current := prev }, [], [stk]⟩
      else
        ⟨DriverOut.fail e, { s1 with current := prev }, [], [stk]⟩

/-- How a full drive of the wrapper ends, as seen by the wrapper's caller.
When the inner generator signals `StopIteration` the wrapper `break`s out of
its loop and falls off the end of the generator function, so its caller
receives a completion whose payload is `None` — hence `completed PyVal.pynone`
on that path. -/
inductive Outcome where
  | completed (r : PyVal)
  | failed (e : PyExc)
  | outOfFuel
deriving DecidableEq, Repr

/-- Trace of a full drive of the wrapper: values it yielded outward, the
resumption inputs actually delivered to the inner generator (in order), the
stacks the body observed at each step, the emitted log events, the final
outcome and the final global state. -/
structure RunOut where
  values : List PyVal
  inputs : List ResumeIn
  observed : List Stack
  log : List (String × Stack)
  outcome : Outcome
  final : EliotState
deriving DecidableEq, Repr

/-- The wrapper's loop, driven from outside by a scheduler: after the i-th
yield of value `v`, the outer world may replace the ambient stack
(`amb i v ·`) and chooses how to resume the wrapper (`inp i v` — a value via
`send` or an injected error via `throwExc`, which the wrapper's
`try/except` around `value_in = yield value_out` converts into the pending
channel for the next iteration).  `fuel` bounds the number of resumptions. -/
def drive_loop {σ : Type} (step : σ → ResumeIn → Stack → StepOut σ) (g : Nat)
    (amb : Nat → PyVal → Stack → Stack) (inp : Nat → PyVal → ResumeIn) :
    Nat → σ → ResumeIn → EliotState → Nat → RunOut
  | 0, _, _, s, _ => ⟨[], [], [], [], Outcome.outOfFuel, s⟩
  | fuel + 1, st, input, s, i =>
    let r := driver_step step g st input s
    match r.out with
    | DriverOut.done =>
      ⟨[], [input], r.obs, r.log, Outcome.completed PyVal.pynone, r.state⟩
    | DriverOut.fail e =>
      ⟨[], [input], r.obs, r.log, Outcome.failed e, r.state⟩
    | DriverOut.yieldOut v st' =>
      let s2 : EliotState := { r.state with ambient := amb i v r.state.ambient }
      let rest := drive_loop step g amb inp fuel st' (inp i v) s2 (i + 1)
      ⟨v :: rest.values, input :: rest.inputs, r.obs ++ rest.observed,
        r.log ++ rest.log, rest.outcome, rest.final⟩

/-- Calling `wrapper(*a, **kw)` only creates the wrapper generator object:
no line of the wrapper body runs, so no context operation happens and the
global state is untouched.  (Python generator-function semantics: the body
starts executing only at the first `send`.) -/
def wrapper_create {σ : Type} (st0 : σ) (s : EliotState) : σ × EliotState :=
  (st0, s)

/-- Driving the wrapper produced by `eliot_friendly_generator_function`:
`s` is the global state at the moment the wrapper generator is *first
resumed* — only then does its body run: it creates the inner generator,
calls `_the_generator_context.init_stack(gen)`, and enters the loop with
`ok = True`, `value_in = None`. -/
def drive_wrapped {σ : Type} (step : σ → ResumeIn → Stack → StepOut σ) (g : Nat)
    (fuel : Nat) (st0 : σ) (s : EliotState)
    (amb : Nat → PyVal → Stack → Stack) (inp : Nat → PyVal → ResumeIn) : RunOut :=
  match init_stack s g with
  | Except.error e => ⟨[], [], [], [], Outcome.failed e, s⟩
  | Except.ok s' =>
    drive_loop step g amb inp fuel st0 (ResumeIn.send PyVal.pynone) s' 0

/-- Driving the *unwrapped* generator with an echo scheduler that feeds every
yielded value straight back: the reference behaviour for the round-trip
property.  Returns the yielded values and, if it terminated, its completion
payload (`Sum.inl`) or escaping exception (`Sum.inr`). -/
def drive_raw_echo {σ : Type} (step : σ → ResumeIn → StepOut σ) :
    Nat → σ → ResumeIn → List PyVal × Option (Sum PyVal PyExc)
  | 0, _, _ => ([], none)
  | fuel + 1, st, input =>
    match step st input with
    | StepOut.yielded v st' =>
      let r := drive_raw_echo step fuel st' (ResumeIn.send v)
      (v :: r.1, r.2)
    | StepOut.stopped r => ([], some (Sum.inl r))
    | StepOut.raised e => ([], some (Sum.inr e))

/-- Positional enumeration of a list starting at a given index. -/
def enumIdx {α : Type} : Nat → List α → List (Nat × α)
  | _, [] => []
  | i, v :: vs => (i, v) :: enumIdx (i + 1) vs

end Eliotutil

namespace Eliotutil

theorem lookupCtx_insertCtx_self (m : List (Nat × Stack)) (g : Nat) (st : Stack) :
    lookupCtx (insertCtx m g st) g = some st := by
  induction m with
  | nil => simp [insertCtx, lookupCtx]
  | cons p rest ih =>
    obtain ⟨k, v⟩ := p
    by_cases h : k = g <;> simp [insertCtx, lookupCtx, h, ih]

theorem lookupCtx_insertCtx_ne (m : List (Nat × Stack)) (g f : Nat) (st : Stack)
    (h : f ≠ g) : lookupCtx (insertCtx m g st) f = lookupCtx m f := by
  have hgf : g ≠ f := fun e => h e.symm
  induction m with
  | nil => simp [insertCtx, lookupCtx, hgf]
  | cons p rest ih =>
    obtain ⟨k, v⟩ := p
    by_cases hk : k = g
    · subst hk
      simp [insertCtx, lookupCtx, hgf]
    · simp [insertCtx, lookupCtx, hk, ih]

/-- Master invariant of the wrapper loop, given that the generator `g` is
registered with snapshot `S`: the loop never changes the contexts map, always
restores the active slot, lets the body observe exactly `S` at every step,
emits exactly one "yielded" event per yielded value (attributed to `S`), and
delivers to the inner generator first `send None` and then exactly the
scheduler's reaction to each yielded value, in order. -/
theorem drive_loop_spec {σ : Type} (step : σ → ResumeIn → Stack → StepOut σ)
    (g : Nat) (amb : Nat → PyVal → Stack → Stack) (inp : Nat → PyVal → ResumeIn)
    (S : Stack) :
    ∀ (fuel : Nat) (st : σ) (input : ResumeIn) (s : EliotState) (i : Nat),
      lookupCtx s.contexts g = some S →
      (drive_loop step g amb inp fuel st input s i).final.contexts = s.contexts ∧
      (drive_loop step g amb inp fuel st input s i).final.current = s.current ∧
      (drive_loop step g amb inp fuel st input s i).observed =
        List.replicate (drive_loop step g amb inp fuel st input s i).inputs.length S ∧
      (drive_loop step g amb inp fuel st input s i).log =
        (drive_loop step g amb inp fuel st input s i).values.map
          (fun _ => ("yielded", S)) ∧
      ((drive_loop step g amb inp fuel st input s i).outcome ≠ Outcome.outOfFuel →
        (drive_loop step g amb inp fuel st input s i).inputs =
          input :: (enumIdx i (drive_loop step g amb inp fuel st input s i).values).map
            (fun p => inp p.1 p.2)) := by
  intro fuel
  induction fuel with
  | zero =>
    intro st input s i h
    simp [drive_loop]
  | succ n ih =>
    intro st input s i h
    have hobs : get_current_stack { s with current := some g } = Except.ok S := by
      simp [get_current_stack, get_stack, h]
    cases hstep : step st input S with
    | yielded v st' =>
      have hrest := ih st' (inp i v)
        { contexts := s.contexts, current := s.current,
          ambient := amb i v s.ambient } (i + 1) h
      simp [drive_loop, driver_step, hobs, hstep] at hrest ⊢
      obtain ⟨h1, h2, h3, h4, h5⟩ := hrest
      refine ⟨h1, h2, ?_, ?_, ?_⟩
      · simp [h3, List.replicate_succ]
      · simp [h4]
      · intro hoc
        simp [enumIdx, h5 hoc]
    | stopped r =>
      simp [drive_loop, driver_step, hobs, hstep, enumIdx, List.replicate_succ]
    | raised e =>
      by_cases he : e.ty = "StopIteration" <;>
        simp [drive_loop, driver_step, hobs, hstep, he, enumIdx,
          List.replicate_succ]

/-- Specialisation of the master invariant to a full drive started while no
generator is active: the captured snapshot is the ambient stack at the moment
of the wrapper's first resumption. -/
theorem drive_wrapped_spec {σ : Type} (step : σ → ResumeIn → Stack → StepOut σ)
    (g : Nat) (fuel : Nat) (st0 : σ) (s : EliotState)
    (amb : Nat → PyVal → Stack → Stack) (inp : Nat → PyVal → ResumeIn)
    (h : s.current = none) :
    (drive_wrapped step g fuel st0 s amb inp).final.current = none ∧
    (drive_wrapped step g fuel st0 s amb inp).final.contexts =
      insertCtx s.contexts g s.ambient ∧
    (drive_wrapped step g fuel st0 s amb inp).observed =
      List.replicate (drive_wrapped step g fuel st0 s amb inp).inputs.length
        s.ambient ∧
    (drive_wrapped step g fuel st0 s amb inp).log =
      (drive_wrapped step g fuel st0 s amb inp).values.map
        (fun _ => ("yielded", s.ambient)) ∧
    ((drive_wrapped step g fuel st0 s amb inp).outcome ≠ Outcome.outOfFuel →
      (drive_wrapped step g fuel st0 s amb inp).inputs =
        ResumeIn.send PyVal.pynone ::
          (enumIdx 0 (drive_wrapped step g fuel st0 s amb inp).values).map
            (fun p => inp p.1 p.2)) := by
  have hinit : init_stack s g =
      Except.ok { s with contexts := insertCtx s.contexts g s.ambient } := by
    simp [init_stack, get_current_stack, get_stack, h]
  have hreg : lookupCtx (insertCtx s.contexts g s.ambient) g = some s.ambient :=
    lookupCtx_insertCtx_self s.contexts g s.ambient
  have hmain := drive_loop_spec step g amb inp s.ambient fuel st0
    (ResumeIn.send PyVal.pynone)
    { s with contexts := insertCtx s.contexts g s.ambient } 0 hreg
  simp [h] at hmain
  simp [drive_wrapped, hinit, h]
  exact ⟨hmain.2.1, hmain.1, hmain.2.2.1, hmain.2.2.2.1, hmain.2.2.2.2⟩

end Eliotutil

namespace Eliotutil

/-- Correspondence between driving the wrapped generator with an echo
scheduler and driving the raw generator with the same echo policy, for a
context-oblivious body: the yielded values agree, and when the raw drive
completes with a payload the wrapper signals completion (with payload
`None`, since the wrapper ends by `break`ing out of its loop). -/
theorem drive_loop_raw_echo {σ : Type} (step : σ → ResumeIn → StepOut σ)
    (g : Nat) (amb : Nat → PyVal → Stack → Stack) (S : Stack) :
    ∀ (fuel : Nat) (st : σ) (input : ResumeIn) (s : EliotState) (i : Nat),
      lookupCtx s.contexts g = some S →
      (drive_loop (fun st inp _ => step st inp) g amb
          (fun _ v => ResumeIn.send v) fuel st input s i).values =
        (drive_raw_echo step fuel st input).1 ∧
      (∀ r, (drive_raw_echo step fuel st input).2 = some (Sum.inl r) →
        (drive_loop (fun st inp _ => step st inp) g amb
            (fun _ v => ResumeIn.send v) fuel st input s i).outcome =
          Outcome.completed PyVal.pynone) := by
  intro fuel
  induction fuel with
  | zero =>
    intro st input s i h
    simp [drive_loop, drive_raw_echo]
  | succ n ih =>
    intro st input s i h
    have hobs : get_current_stack { s with current := some g } = Except.ok S := by
      simp [get_current_stack, get_stack, h]
    cases hstep : step st input with
    | yielded v st' =>
      have hrest := ih st' (ResumeIn.send v)
        { contexts := s.contexts, current := s.current,
          ambient := amb i v s.ambient } (i + 1) h
      simp [drive_loop, driver_step, drive_raw_echo, hobs, hstep] at hrest ⊢
      exact hrest
    | stopped r =>
      simp [drive_loop, driver_step, drive_raw_echo, hobs, hstep]
    | raised e =>
      by_cases he : e.ty = "StopIteration" <;>
        simp [drive_loop, driver_step, drive_raw_echo, hobs, hstep, he]

/-- A fresh global state: nothing registered, no active generator, a given
ambient stack. -/
def exSt (amb : Stack) : EliotState := ⟨[], none, amb⟩

/-- Echo scheduler: resume the wrapper with each yielded value. -/
def echoInp : Nat → PyVal → ResumeIn := fun _ v => ResumeIn.send v

/-- Outer world that leaves the ambient stack alone between resumptions. -/
def ambKeep : Nat → PyVal → Stack → Stack := fun _ _ a => a

/-- Outer world that clobbers the ambient stack between resumptions. -/
def ambOther : Nat → PyVal → Stack → Stack := fun _ _ _ => ["other"]

/-- A generator body that yields the context stack it observes, then stops:
used to exhibit which stack code inside the generator actually sees. -/
def genObserve : Nat → ResumeIn → Stack → StepOut Nat := fun st _ stk =>
  match st with
  | 0 => StepOut.yielded (PyVal.stack stk) 1
  | _ => StepOut.stopped PyVal.pynone

/-- A context-oblivious generator body: yields 1, yields 2, then returns
the payload "done". -/
def genTwoDone : Nat → ResumeIn → StepOut Nat := fun st _ =>
  match st with
  | 0 => StepOut.yielded (PyVal.int 1) 1
  | 1 => StepOut.yielded (PyVal.int 2) 2
  | _ => StepOut.stopped (PyVal.str "done")

/-- A generator body that raises `ValueError` as soon as it is stepped. -/
def genRaise : Nat → ResumeIn → Stack → StepOut Nat := fun _ _ _ =>
  StepOut.raised ⟨"ValueError", PyVal.pynone⟩

/-- A generator body that yields 1 and then re-raises whatever error is
thrown into it (or yields back a sent value). -/
def genInject : Nat → ResumeIn → Stack → StepOut Nat := fun st input _ =>
  match st, input with
  | 0, _ => StepOut.yielded (PyVal.int 1) 1
  | _, ResumeIn.throwExc e => StepOut.raised e
  | _, ResumeIn.send v => StepOut.yielded v 2

/-- Scheduler that resumes the wrapper by throwing `Boom` into it after
every yield. -/
def injBoom : Nat → PyVal → ResumeIn := fun _ _ =>
  ResumeIn.throwExc ⟨"Boom", PyVal.pynone⟩

end Eliotutil

namespace Eliotutil

/-- Claim C1 — counterexample to the claim as stated.  `wrapper_create`
models calling the wrapper factory: it is the identity on the global state,
because the wrapper is itself a generator function whose body (and hence
`init_stack`) does not run until the first resumption.  Creating the wrapper
while the ambient stack is `["root"]` therefore captures nothing; if the
ambient stack has become `["other"]` by the time the wrapper is first
resumed, the code before the coroutine's first yield observes `["other"]`
(the ambient at first resumption) — not the wrap-time stack `["root"]`.
The last conjunct shows the observation does track the first-resumption
ambient. -/
theorem c1_wrap_time_capture_cex :
    wrapper_create 0 (exSt ["root"]) = (0, exSt ["root"]) ∧
    (drive_wrapped genObserve 7 5 0 (exSt ["other"]) ambKeep echoInp).values =
      [PyVal.stack ["other"]] ∧
    PyVal.stack ["other"] ≠ PyVal.stack ["root"] ∧
    (drive_wrapped genObserve 7 5 0 (exSt ["root"]) ambKeep echoInp).values =
      [PyVal.stack ["root"]] := by
  refine ⟨rfl, by decide, by decide, by decide⟩

/-- Claim C1 (amended): the snapshot is captured at the wrapper's *first
resumption* (when its body finally runs `init_stack`), not at wrap/creation
time; code executed inside the wrapped coroutine — at every step, and in
particular before its first yield — observes exactly the stack that was
ambient at the moment of first resumption, no matter how the ambient stack
is mutated at later resumptions (`amb` arbitrary). -/
theorem c1_first_resumption_attribution {σ : Type}
    (step : σ → ResumeIn → Stack → StepOut σ) (g : Nat) (fuel : Nat) (st0 : σ)
    (s : EliotState) (amb : Nat → PyVal → Stack → Stack)
    (inp : Nat → PyVal → ResumeIn) (h : s.current = none) :
    (drive_wrapped step g fuel st0 s amb inp).observed =
      List.replicate (drive_wrapped step g fuel st0 s amb inp).inputs.length
        s.ambient :=
  (drive_wrapped_spec step g fuel st0 s amb inp h).2.2.1

/-- Witness for the amended C1: a generator that yields the stack it
observes, driven from ambient `["r"]` with the ambient clobbered to
`["other"]` between resumptions, observes `["r"]` at both of its steps. -/
theorem c1_first_resumption_attribution_witness :
    (drive_wrapped genObserve 3 4 0 (exSt ["r"]) ambOther echoInp).observed =
      List.replicate
        (drive_wrapped genObserve 3 4 0 (exSt ["r"]) ambOther echoInp).inputs.length
        ["r"] :=
  c1_first_resumption_attribution genObserve 3 4 0 (exSt ["r"]) ambOther echoInp rfl

/-- Claim C2 — counterexample to the claim as stated: a coroutine yielding
1, 2 and returning "done", driven through the wrapper with the echo
scheduler, yields 1, 2 — but signals completion with payload `None`, not
with the return payload "done" that the unwrapped drive produces: the
wrapper's `except StopIteration: break` discards the payload. -/
theorem c2_return_payload_cex :
    drive_raw_echo genTwoDone 10 0 (ResumeIn.send PyVal.pynone) =
      ([PyVal.int 1, PyVal.int 2], some (Sum.inl (PyVal.str "done"))) ∧
    (drive_wrapped (fun st i _ => genTwoDone st i) 7 10 0 (exSt ["root"])
        ambKeep echoInp).values = [PyVal.int 1, PyVal.int 2] ∧
    (drive_wrapped (fun st i _ => genTwoDone st i) 7 10 0 (exSt ["root"])
        ambKeep echoInp).outcome = Outcome.completed PyVal.pynone ∧
    Outcome.completed PyVal.pynone ≠ Outcome.completed (PyVal.str "done") := by
  refine ⟨by decide, by decide, by decide, by decide⟩

/-- Claim C2 (amended): a context-oblivious coroutine yielding v1..vn and
returning r, driven through the wrapper with a scheduler that forwards each
yielded value straight back, yields exactly v1..vn in the same order as the
unwrapped drive and then signals completion — but the completion payload is
`None`: the wrapper discards the wrapped coroutine's return payload.  (Under
the code's Python 2 target, where generators cannot return values, the
discarded payload is always `None` anyway.) -/
theorem c2_value_round_trip {σ : Type} (step : σ → ResumeIn → StepOut σ)
    (g fuel : Nat) (st0 : σ) (s : EliotState)
    (amb : Nat → PyVal → Stack → Stack) (h : s.current = none) :
    (drive_wrapped (fun st i _ => step st i) g fuel st0 s amb
        (fun _ v => ResumeIn.send v)).values =
      (drive_raw_echo step fuel st0 (ResumeIn.send PyVal.pynone)).1 ∧
    (∀ r, (drive_raw_echo step fuel st0 (ResumeIn.send PyVal.pynone)).2 =
        some (Sum.inl r) →
      (drive_wrapped (fun st i _ => step st i) g fuel st0 s amb
          (fun _ v => ResumeIn.send v)).outcome =
        Outcome.completed PyVal.pynone) := by
  have hinit : init_stack s g =
      Except.ok { s with contexts := insertCtx s.contexts g s.ambient } := by
    simp [init_stack, get_current_stack, get_stack, h]
  have hreg : lookupCtx (insertCtx s.contexts g s.ambient) g = some s.ambient :=
    lookupCtx_insertCtx_self s.contexts g s.ambient
  have hmain := drive_loop_raw_echo step g amb s.ambient fuel st0
    (ResumeIn.send PyVal.pynone)
    { s with contexts := insertCtx s.contexts g s.ambient } 0 hreg
  simpa [drive_wrapped, hinit] using hmain

/-- Witness for the amended C2 at the concrete coroutine yielding 1, 2 and
returning "done". -/
theorem c2_value_round_trip_witness :
    (drive_wrapped (fun st i _ => genTwoDone st i) 7 10 0 (exSt ["root"])
        ambKeep (fun _ v => ResumeIn.send v)).values =
      (drive_raw_echo genTwoDone 10 0 (ResumeIn.send PyVal.pynone)).1 ∧
    (drive_wrapped (fun st i _ => genTwoDone st i) 7 10 0 (exSt ["root"])
        ambKeep (fun _ v => ResumeIn.send v)).outcome =
      Outcome.completed PyVal.pynone :=
  ⟨(c2_value_round_trip genTwoDone 7 10 0 (exSt ["root"]) ambKeep rfl).1,
   (c2_value_round_trip genTwoDone 7 10 0 (exSt ["root"]) ambKeep rfl).2
     (PyVal.str "done") (by decide)⟩

/-- Claim C3: activation nests strictly LIFO.  If a step of coroutine F
(active slot `some f`, snapshot `stkF` registered) drives a second wrapped
coroutine G — to completion, failure, or mid-suspension (any `fuel`) — then
afterwards the active slot again holds `f`, F's registry entry is untouched,
and a context query made on F's behalf still answers F's original snapshot,
never G's. -/
theorem c3_nesting_isolation {σ : Type} (step : σ → ResumeIn → Stack → StepOut σ)
    (f g : Nat) (hfg : f ≠ g) (fuel : Nat) (st0 : σ) (s : EliotState)
    (amb : Nat → PyVal → Stack → Stack) (inp : Nat → PyVal → ResumeIn)
    (stkF : Stack) (hcur : s.current = some f)
    (hregF : lookupCtx s.contexts f = some stkF) :
    (drive_wrapped step g fuel st0 s amb inp).final.current = some f ∧
    lookupCtx (drive_wrapped step g fuel st0 s amb inp).final.contexts f =
      some stkF ∧
    get_current_stack (drive_wrapped step g fuel st0 s amb inp).final =
      Except.ok stkF := by
  obtain ⟨cs, cur, am⟩ := s
  simp only [EliotState.current] at hcur
  simp only [EliotState.contexts] at hregF
  subst hcur
  have hinit : init_stack ⟨cs, some f, am⟩ g =
      Except.ok ⟨insertCtx cs g stkF, some f, am⟩ := by
    simp [init_stack, get_current_stack, get_stack, hregF, insertCtx]
  have hreg : lookupCtx (insertCtx cs g stkF) g = some stkF :=
    lookupCtx_insertCtx_self cs g stkF
  have hmain := drive_loop_spec step g amb inp stkF fuel st0
    (ResumeIn.send PyVal.pynone) ⟨insertCtx cs g stkF, some f, am⟩ 0 hreg
  have hc : (drive_wrapped step g fuel st0 ⟨cs, some f, am⟩ amb
      inp).final.current = some f := by
    simp only [drive_wrapped, hinit]
    exact hmain.2.1
  have hl : lookupCtx (drive_wrapped step g fuel st0 ⟨cs, some f, am⟩ amb
      inp).final.contexts f = some stkF := by
    simp only [drive_wrapped, hinit]
    rw [hmain.1]
    show lookupCtx (insertCtx cs g stkF) f = some stkF
    rw [lookupCtx_insertCtx_ne cs g f stkF hfg]
    exact hregF
  refine ⟨hc, hl, ?_⟩
  simp [get_current_stack, get_stack, hc, hl]

/-- Witness for C3: F is generator 1 with snapshot `["f"]` and the active
slot; driving generator 0 from within F's step leaves the slot on F, F's
entry intact, and F's context query unchanged. -/
theorem c3_nesting_isolation_witness :
    (drive_wrapped genObserve 0 5 0 ⟨[(1, ["f"])], some 1, ["amb"]⟩ ambKeep
        echoInp).final.current = some 1 ∧
    lookupCtx ((drive_wrapped genObserve 0 5 0 ⟨[(1, ["f"])], some 1, ["amb"]⟩
        ambKeep echoInp).final.contexts) 1 = some ["f"] ∧
    get_current_stack (drive_wrapped genObserve 0 5 0
        ⟨[(1, ["f"])], some 1, ["amb"]⟩ ambKeep echoInp).final =
      Except.ok ["f"] :=
  c3_nesting_isolation genObserve 1 0 (by decide) 5 0
    ⟨[(1, ["f"])], some 1, ["amb"]⟩ ambKeep echoInp ["f"] rfl rfl

/-- Claim C4: every exit path of one wrapper iteration restores the active
slot (indeed the whole global state — the body mutates nothing else), and an
exception raised by the wrapped coroutine other than `StopIteration`
propagates out of the wrapper exactly as raised — same exception, no
translation or suppression, no diagnostic event — with the slot already
restored. -/
theorem c4_error_propagation {σ : Type} (step : σ → ResumeIn → Stack → StepOut σ)
    (g : Nat) (st : σ) (input : ResumeIn) (s : EliotState) :
    (driver_step step g st input s).state = s ∧
    (∀ stk e, get_current_stack { s with current := some g } = Except.ok stk →
      step st input stk = StepOut.raised e → e.ty ≠ "StopIteration" →
      driver_step step g st input s =
        ⟨DriverOut.fail e, s, [], [stk]⟩) := by
  constructor
  · cases hgc : get_current_stack { s with current := some g } with
    | error e => simp [driver_step, hgc]
    | ok stk =>
      cases hstep : step st input stk with
      | yielded v st' => simp [driver_step, hgc, hstep]
      | stopped r => simp [driver_step, hgc, hstep]
      | raised e =>
        by_cases he : e.ty = "StopIteration" <;>
          simp [driver_step, hgc, hstep, he]
  · intro stk e hgc hstep he
    simp [driver_step, hgc, hstep, he]

/-- Witness for C4: a body raising `ValueError` makes the wrapper fail with
exactly that exception, the state restored. -/
theorem c4_error_propagation_witness :
    (driver_step genRaise 0 0 (ResumeIn.send PyVal.pynone)
      ⟨[(0, ["r"])], none, ["r"]⟩).state = ⟨[(0, ["r"])], none, ["r"]⟩ ∧
    driver_step genRaise 0 0 (ResumeIn.send PyVal.pynone)
        ⟨[(0, ["r"])], none, ["r"]⟩ =
      ⟨DriverOut.fail ⟨"ValueError", PyVal.pynone⟩,
        ⟨[(0, ["r"])], none, ["r"]⟩, [], [["r"]]⟩ :=
  ⟨(c4_error_propagation genRaise 0 0 (ResumeIn.send PyVal.pynone)
      ⟨[(0, ["r"])], none, ["r"]⟩).1,
   (c4_error_propagation genRaise 0 0 (ResumeIn.send PyVal.pynone)
      ⟨[(0, ["r"])], none, ["r"]⟩).2 ["r"] ⟨"ValueError", PyVal.pynone⟩
     rfl rfl (by decide)⟩

/-- Claim C5: the resumption inputs actually delivered to the wrapped
coroutine are, in order, `send None` and then exactly the outer world's
reaction to each yielded value — value for value, injected error for
injected error.  In particular, resuming the wrapper with an injected error
right after its k-th yield (`inp k v = throwExc e`) delivers that error into
the wrapped coroutine at exactly its k-th suspension point, and the channel
used at each iteration matches the channel of the wrapper's most recent
resumption. -/
theorem c5_error_forwarding {σ : Type} (step : σ → ResumeIn → Stack → StepOut σ)
    (g fuel : Nat) (st0 : σ) (s : EliotState)
    (amb : Nat → PyVal → Stack → Stack) (inp : Nat → PyVal → ResumeIn)
    (h : s.current = none)
    (hoc : (drive_wrapped step g fuel st0 s amb inp).outcome ≠
      Outcome.outOfFuel) :
    (drive_wrapped step g fuel st0 s amb inp).inputs =
      ResumeIn.send PyVal.pynone ::
        (enumIdx 0 (drive_wrapped step g fuel st0 s amb inp).values).map
          (fun p => inp p.1 p.2) :=
  (drive_wrapped_spec step g fuel st0 s amb inp h).2.2.2.2 hoc

/-- Witness for C5: throwing `Boom` into the wrapper after its first yield
delivers `throw Boom` to the inner generator at its first suspension point
(the inner generator then re-raises it). -/
theorem c5_error_forwarding_witness :
    (drive_wrapped genInject 7 5 0 (exSt ["r"]) ambKeep injBoom).inputs =
      ResumeIn.send PyVal.pynone ::
        (enumIdx 0 (drive_wrapped genInject 7 5 0 (exSt ["r"]) ambKeep
          injBoom).values).map (fun p => injBoom p.1 p.2) :=
  c5_error_forwarding genInject 7 5 0 (exSt ["r"]) ambKeep injBoom rfl (by decide)

/-- Claim C6 — counterexample to the claim as stated: `init_stack` has no
double-call check.  A second call for the same handle does not fail with an
invariant violation; it succeeds and silently overwrites the stored snapshot
with a freshly captured one. -/
theorem c6_init_twice_cex :
    init_stack (exSt ["a"]) 0 = Except.ok ⟨[(0, ["a"])], none, ["a"]⟩ ∧
    init_stack ⟨[(0, ["a"])], none, ["b"]⟩ 0 =
      Except.ok ⟨[(0, ["b"])], none, ["b"]⟩ := by
  refine ⟨rfl, rfl⟩

/-- Claim C6 (amended): `init_stack` captures the context source's current
stack and stores it keyed by the handle (weakly, in the source — weakness
not modelled); a call when an entry already exists does not fail but
overwrites the entry with the newly captured stack. -/
theorem c6_init_stack_overwrites (s : EliotState) (g : Nat) (st : Stack)
    (h : get_current_stack s = Except.ok st) :
    init_stack s g =
      Except.ok { s with contexts := insertCtx s.contexts g st } ∧
    lookupCtx (insertCtx s.contexts g st) g = some st :=
  ⟨by simp [init_stack, h], lookupCtx_insertCtx_self s.contexts g st⟩

/-- Witness for the amended C6 at a state that already holds an entry for
the handle: the call succeeds and the entry now holds the new capture. -/
theorem c6_init_stack_overwrites_witness :
    init_stack ⟨[(0, ["a"])], none, ["b"]⟩ 0 =
      Except.ok { (⟨[(0, ["a"])], none, ["b"]⟩ : EliotState) with
        contexts := insertCtx [(0, ["a"])] 0 ["b"] } ∧
    lookupCtx (insertCtx [(0, ["a"])] 0 ["b"]) 0 = some ["b"] :=
  c6_init_stack_overwrites ⟨[(0, ["a"])], none, ["b"]⟩ 0 ["b"] rfl

/-- Claim C7: the context query returns `None` whenever the active slot is
empty (deferring to the ambient default); with an active generator it
returns that generator's registered snapshot; and with an active generator
that has no registered snapshot it fails with a `KeyError` — an error, not a
silently ignored condition or a normal return. -/
theorem c7_get_stack_cases (s : EliotState) :
    (s.current = none → get_stack s = Except.ok none) ∧
    (∀ g st, s.current = some g → lookupCtx s.contexts g = some st →
      get_stack s = Except.ok (some st)) ∧
    (∀ g, s.current = some g → lookupCtx s.contexts g = none →
      get_stack s = Except.error ⟨"KeyError", PyVal.int (Int.ofNat g)⟩) :=
  ⟨fun h => by simp [get_stack, h],
   fun g st h1 h2 => by simp [get_stack, h1, h2],
   fun g h1 h2 => by simp [get_stack, h1, h2]⟩

/-- Witness for C7: all three branches at concrete states. -/
theorem c7_get_stack_cases_witness :
    get_stack (exSt ["r"]) = Except.ok none ∧
    get_stack ⟨[(0, ["r"])], some 0, ["a"]⟩ = Except.ok (some ["r"]) ∧
    get_stack ⟨[], some 3, ["a"]⟩ =
      Except.error ⟨"KeyError", PyVal.int (Int.ofNat 3)⟩ :=
  ⟨(c7_get_stack_cases (exSt ["r"])).1 rfl,
   (c7_get_stack_cases ⟨[(0, ["r"])], some 0, ["a"]⟩).2.1 0 ["r"] rfl rfl,
   (c7_get_stack_cases ⟨[], some 3, ["a"]⟩).2.2 3 rfl rfl⟩

/-- Claim C8: the drive emits exactly one "yielded" diagnostic marker per
suspension — the log is the yielded-value list mapped to the marker — and
each marker is attributed to the coroutine's own snapshot (the stack
captured at first resumption), because it is emitted while the activation is
still in effect; a step that signals completion contributes no marker. -/
theorem c8_marker_per_suspension {σ : Type}
    (step : σ → ResumeIn → Stack → StepOut σ) (g : Nat) (fuel : Nat) (st0 : σ)
    (s : EliotState) (amb : Nat → PyVal → Stack → Stack)
    (inp : Nat → PyVal → ResumeIn) (h : s.current = none) :
    (drive_wrapped step g fuel st0 s amb inp).log =
      (drive_wrapped step g fuel st0 s amb inp).values.map
        (fun _ => ("yielded", s.ambient)) :=
  (drive_wrapped_spec step g fuel st0 s amb inp h).2.2.2.1

/-- Witness for C8: two suspensions, two markers, both attributed to the
snapshot `["root"]` even though the ambient stack is clobbered between
resumptions; the completing step adds none. -/
theorem c8_marker_per_suspension_witness :
    (drive_wrapped (fun st i _ => genTwoDone st i) 7 10 0 (exSt ["root"])
        ambOther echoInp).log =
      (drive_wrapped (fun st i _ => genTwoDone st i) 7 10 0 (exSt ["root"])
          ambOther echoInp).values.map (fun _ => ("yielded", ["root"])) :=
  c8_marker_per_suspension (fun st i _ => genTwoDone st i) 7 10 0
    (exSt ["root"]) ambOther echoInp rfl

/-- Claim C9 — counterexample to the claim as stated: the per-suspension
marker is hardwired.  `drive_wrapped` (like the source's wrapper, whose
`Message.log(message_type="yielded")` is unconditional and merely carries a
comment that it "might be too noisy") takes no on/off configuration, and a
drive with a suspension always emits the marker: there is no configuration
under which the log stays empty. -/
theorem c9_hardwired_cex :
    (drive_wrapped genObserve 7 5 0 (exSt ["root"]) ambKeep echoInp).log =
      [("yielded", ["root"])] ∧
    ([("yielded", ["root"])] : List (String × Stack)) ≠ [] := by
  refine ⟨by decide, by decide⟩

/-- Claim C9 (amended): marker emission is unconditional — every drive emits
exactly as many "yielded" markers as there are suspensions, with no
configuration point to turn them off; the source merely notes in a comment
that making it optional might be considered. -/
theorem c9_marker_unconditional {σ : Type}
    (step : σ → ResumeIn → Stack → StepOut σ) (g : Nat) (fuel : Nat) (st0 : σ)
    (s : EliotState) (amb : Nat → PyVal → Stack → Stack)
    (inp : Nat → PyVal → ResumeIn) (h : s.current = none) :
    (drive_wrapped step g fuel st0 s amb inp).log.length =
      (drive_wrapped step g fuel st0 s amb inp).values.length := by
  rw [(drive_wrapped_spec step g fuel st0 s amb inp h).2.2.2.1]
  simp

/-- Witness for the amended C9: one suspension, one marker. -/
theorem c9_marker_unconditional_witness :
    (drive_wrapped genObserve 7 5 0 (exSt ["root"]) ambKeep echoInp).log.length =
      (drive_wrapped genObserve 7 5 0 (exSt ["root"]) ambKeep
        echoInp).values.length :=
  c9_marker_unconditional genObserve 7 5 0 (exSt ["root"]) ambKeep echoInp rfl

end Eliotutil
